import Mathlib

/-
Verification development for the easy-video-compress repository.

The relevant program logic is shallowly embedded below:
* the size-target parameter solver of compress.py (lines 155-165) and of
  compress5.py (find_optimal_parameters, lines 32-49),
* the ffmpeg progress-stream relay of compress.py (run_with_progress /
  run_ffmpeg_gui, lines 109-142 and 206-239),
* the Tk GUI completion bookkeeping (process_gui_queue / process_row,
  lines 479-519 and 589-606),
* the output naming of compress.py / qt_gui.py / compress5.py,
* the Qt adapter's call into compress (qt_gui.py Worker.run, lines 41-57),
* a worker-pool model for ThreadPoolExecutor(max_workers=MAX_WORKERS).

Python floats are modelled as exact rationals, Python int() truncation as
pyInt, strings as lists of characters, and the unbounded while-loop of the
solver as a fuel-indexed recursion (none = the loop did not exit within the
given number of iterations).
-/

namespace EasyVideoCompress

/-- Constant SHORT_THRESHOLD = 2.0 from compress.py line 22. -/
def SHORT_THRESHOLD : ℚ := 2

/-- Constant MAX_WORKERS = 4 from compress.py line 23. -/
def MAX_WORKERS : ℕ := 4

/-- Constant TARGET_MB = 4.5 from compress.py line 24. -/
def TARGET_MB : ℚ := 9 / 2

/-- Constant AUDIO_BR = 64_000 from compress.py line 25. -/
def AUDIO_BR : ℕ := 64000

/-- Python int() applied to a float value: truncation toward zero. -/
def pyInt (q : ℚ) : ℤ := if 0 ≤ q then ⌊q⌋ else ⌈q⌉

/-- Value target_b = int(TARGET_MB * 1024 * 1024) from compress.py line 156. -/
def target_b : ℤ := pyInt (TARGET_MB * 1024 * 1024)

/-- Candidate video bitrate (target_b * 8 - AUDIO_BR * dur) / dur computed on
every iteration of the solver loop (compress.py line 159); it does not depend
on the loop state. -/
def vbrOf (dur : ℚ) : ℚ := ((target_b : ℚ) * 8 - (AUDIO_BR : ℚ) * dur) / dur

/-- Result of the size-target solver: scaled width, scaled height (Python int()
of w*scale and h*scale) and the int() of the candidate bitrate. -/
structure SolveResult where
  w2 : ℤ
  h2 : ℤ
  vbr : ℤ
deriving DecidableEq, Repr

/-- The while-loop of compress.py lines 157-164 (identical in compress_gui,
lines 250-257), indexed by fuel: each unit of fuel allows one evaluation of
the loop condition; none means the loop did not exit within that many
iterations.  The source recomputes vbr on every iteration; its value is
vbrOf dur each time. -/
def solveLoop (w h : ℕ) (dur : ℚ) : ℕ → ℚ → Option SolveResult
  | 0, _ => none
  | fuel + 1, scale =>
    let vbr := vbrOf dur
    if vbr < (w : ℚ) * (h : ℚ) * scale * scale * (1 / 10) then
      solveLoop w h dur fuel (scale * (9 / 10))
    else
      some ⟨pyInt ((w : ℚ) * scale), pyInt ((h : ℚ) * scale), pyInt vbr⟩

/-- The while-loop of compress5.py find_optimal_parameters (lines 36-47),
fuel-indexed.  Unlike compress.py, this variant mutates width and height in
place each iteration (truncating), and its min_bitrate uses the mutated,
unscaled dimensions.  The bitRate argument of the Python function is unused,
exactly as in the source. -/
def find_optimal_parameters (width height : ℤ) (bitRate : ℤ) (dur targetSizeBytes : ℚ) :
    ℕ → ℤ → ℤ → ℚ → Option (ℤ × ℤ × ℤ)
  | 0, _, _, _ => none
  | fuel + 1, wCur, hCur, scaleFactor =>
    let videoBitrate := (targetSizeBytes * 8 - 64000 * dur) / dur
    let minBitrate := (wCur : ℚ) * (hCur : ℚ) * (1 / 10)
    if videoBitrate < minBitrate then
      let s := scaleFactor * (9 / 10)
      find_optimal_parameters width height bitRate dur targetSizeBytes fuel
        (pyInt ((wCur : ℚ) * s)) (pyInt ((hCur : ℚ) * s)) s
    else
      some (wCur, hCur, pyInt videoBitrate)

/-- Python float division, raising ZeroDivisionError on a zero divisor. -/
def pyDiv (a b : ℚ) : Except String ℚ :=
  if b = 0 then Except.error "ZeroDivisionError" else Except.ok (a / b)

/-- The get_duration function of compress.py lines 67-79: float(out) on the
probed duration string, with a non-numeric probe output (ValueError) mapped
to 0.0.  The argument is the parsed probe output. -/
def get_duration (parsedProbe : Option ℚ) : ℚ :=
  match parsedProbe with
  | some x => x
  | none => 0

/-- Size-mode path of compress (compress.py lines 145-165): get_duration is
called and the solver loop is entered directly; no duration validation happens
in between, so the very first division of the loop body is evaluated with
whatever duration was probed.  A zero duration raises ZeroDivisionError there. -/
def compress_size (parsedProbe : Option ℚ) (w h : ℕ) (fuel : ℕ) :
    Except String SolveResult :=
  let dur := get_duration parsedProbe
  match pyDiv ((target_b : ℚ) * 8 - (AUDIO_BR : ℚ) * dur) dur with
  | Except.error e => Except.error e
  | Except.ok _ =>
    match solveLoop w h dur fuel 1 with
    | some r => Except.ok r
    | none => Except.error "loop did not exit"

/-! Strings are modelled as lists of characters (Python str / Lean String.data). -/

/-- Test whether the second list starts with the first (Python str.startswith). -/
def startsWithChars : List Char → List Char → Bool
  | [], _ => true
  | _ :: _, [] => false
  | p :: ps, c :: cs => (p == c) && startsWithChars ps cs

/-- Everything after the first '=' of the line: Python line.split("=", 1)[1]. -/
def dropThroughEq : List Char → List Char
  | [] => []
  | c :: cs => if c = '=' then cs else dropThroughEq cs

/-- Python str.strip(): remove leading and trailing whitespace. -/
def stripChars (l : List Char) : List Char :=
  (((l.dropWhile Char.isWhitespace).reverse).dropWhile Char.isWhitespace).reverse

/-- Accumulate decimal digits; any non-digit character is a parse failure. -/
def parseDigitsAux : List Char → ℕ → Option ℕ
  | [], acc => some acc
  | c :: cs, acc =>
    if c.isDigit then parseDigitsAux cs (acc * 10 + (c.toNat - 48)) else none

/-- Parse a nonempty all-digit string as a natural number. -/
def parseDigits : List Char → Option ℕ
  | [] => none
  | c :: cs => parseDigitsAux (c :: cs) 0

/-- Python int(s) on a stripped string: optional sign followed by decimal
digits; anything else raises ValueError (modelled as none). -/
def pyParseInt (s : List Char) : Option ℤ :=
  match stripChars s with
  | '+' :: rest => (parseDigits rest).map (fun n => (n : ℤ))
  | '-' :: rest => (parseDigits rest).map (fun n => -(n : ℤ))
  | l => (parseDigits l).map (fun n => (n : ℤ))

/-- The progress-stream loop of compress.py lines 129-137 (identical in
run_ffmpeg_gui, lines 226-234): for each line of the encoder's progress pipe,
a line starting with out_time_ms= whose value parses with int() produces a
callback with the parsed value divided by 1,000,000; a value that fails to
parse is ignored; a line starting with progress=end stops reading.  The
returned list is the sequence of callback arguments (seconds completed). -/
def relayCallbacks : List (List Char) → List ℚ
  | [] => []
  | line :: rest =>
    if startsWithChars "out_time_ms=".data line then
      match pyParseInt (dropThroughEq line) with
      | some n => ((n : ℚ) / 1000000) :: relayCallbacks rest
      | none => relayCallbacks rest
    else if startsWithChars "progress=end".data line then []
    else relayCallbacks rest

/-- The run_ffmpeg_gui function of compress.py lines 206-239 (run_with_progress,
lines 109-142, has the same structure): a duration at or below SHORT_THRESHOLD
runs the encoder synchronously and, on success, invokes the callback exactly
once with the full duration; otherwise the progress stream is relayed and, on
success, a final callback with the full duration is appended.  The first
component is the list of callback arguments, the second whether the run
succeeded. -/
def run_ffmpeg_gui (duration : ℚ) (streamLines : List (List Char)) (exitOk : Bool) :
    List ℚ × Bool :=
  if duration ≤ SHORT_THRESHOLD then
    if exitOk then ([duration], true) else ([], false)
  else
    let cbs := relayCallbacks streamLines
    if exitOk then (cbs ++ [duration], true) else (cbs, false)

/-- The per-row update closure of process_row (compress.py lines 596-598):
percent = min(100, sec * 100 / duration). -/
def guiPercent (duration sec : ℚ) : ℚ := min 100 (sec * 100 / duration)

/-- Messages put on the gui_queue by process_row (compress.py lines 594-606). -/
inductive GuiMsg where
  | begin
  | progress (p : ℚ)
  | finish (sizeMB : ℚ)
  | error
deriving DecidableEq

/-- Whether a message marks a terminal transition (finish or error). -/
def GuiMsg.isTerminal : GuiMsg → Bool
  | .finish _ => true
  | .error => true
  | _ => false

/-- The done counter maintained by process_gui_queue (compress.py lines
479-519): done += 1 exactly on finish and error messages, never on begin or
progress messages. -/
def processGuiQueue : ℕ → List GuiMsg → ℕ
  | done, [] => done
  | done, m :: ms => processGuiQueue (if m.isTerminal then done + 1 else done) ms

/-- The message trace of one process_row job (compress.py lines 589-606):
a begin message, the stream of progress messages, and exactly one terminal
message - finish when compress_gui returned, error when it raised. -/
def jobTrace (ok : Bool) (ps : List ℚ) (sizeMB : ℚ) : List GuiMsg :=
  GuiMsg.begin :: (ps.map GuiMsg.progress ++ [if ok then GuiMsg.finish sizeMB else GuiMsg.error])

/-! Output naming.  File names are lists of characters; pySplitext models
os.path.splitext (split at the last dot), which for ordinary names also
computes pathlib's Path.stem (the part before the last dot). -/

/-- Split a file name at its last dot: os.path.splitext.  The second component
is the extension including the dot, or empty when there is no dot. -/
def pySplitext (l : List Char) : List Char × List Char :=
  let rev := l.reverse
  let extRev := rev.takeWhile (fun c => !(c = '.'))
  if extRev.length = l.length then (l, [])
  else ((rev.drop (extRev.length + 1)).reverse, '.' :: extRev.reverse)

/-- Output name in compress.py main, lines 645-648: stem + "_smaller.mp4" in
size mode, stem + "_compressed.mp4" in quality mode. -/
def cliOutName (name : List Char) (sizeMode : Bool) : List Char :=
  if sizeMode then (pySplitext name).1 ++ "_smaller.mp4".data
  else (pySplitext name).1 ++ "_compressed.mp4".data

/-- Output name in process_row, compress.py line 592: same two suffixes keyed
on the mode string. -/
def guiOutName (name : List Char) (mode : List Char) : List Char :=
  if mode = "size".data then (pySplitext name).1 ++ "_smaller.mp4".data
  else (pySplitext name).1 ++ "_compressed.mp4".data

/-- Output name in qt_gui.py Worker.run, line 42: built from the f-string
stem + "_" + ("smaller" or "compressed") + ".mp4". -/
def qtOutName (name : List Char) (sizeMode : Bool) : List Char :=
  (pySplitext name).1 ++ "_".data ++ (if sizeMode then "smaller".data else "compressed".data)
    ++ ".mp4".data

/-- Output name in compress5.py line 69: splitext root + "_smaller" + the
input's own extension. -/
def compress5OutName (name : List Char) : List Char :=
  (pySplitext name).1 ++ "_smaller".data ++ (pySplitext name).2

/-! Scheduler model.  ThreadPoolExecutor is an external collaborator; its
documented contract (at most max_workers submitted callables run at once) is
modelled as a transition system. -/

/-- State of a worker pool: jobs submitted but not yet started, and jobs
currently running in a worker. -/
structure PoolState where
  pending : ℕ
  running : ℕ
deriving DecidableEq

/-- Modelled from the spec: transitions of ThreadPoolExecutor(max_workers=cap)
as used by run_gui (compress.py line 466, cap = MAX_WORKERS) and main
(compress.py line 657, cap = min(len(tasks), MAX_WORKERS)).  A submitted job
may start only while fewer than cap jobs are running; a running job may
finish at any time. -/
inductive PoolStep (cap : ℕ) : PoolState → PoolState → Prop
  | submit (p r : ℕ) : PoolStep cap ⟨p, r⟩ ⟨p + 1, r⟩
  | start (p r : ℕ) (h : r < cap) : PoolStep cap ⟨p + 1, r⟩ ⟨p, r + 1⟩
  | finish (p r : ℕ) : PoolStep cap ⟨p, r + 1⟩ ⟨p, r⟩

/-- Worker cap used by main, compress.py line 657. -/
def cliMaxWorkers (nTasks : ℕ) : ℕ := min nTasks MAX_WORKERS

/-! Qt adapter (qt_gui.py). -/

/-- Parameter names of compress (compress.py line 145). -/
def compressParams : List (List Char) :=
  ["path".data, "output".data, "mode".data, "crf".data, "preset".data, "progress".data]

/-- Keyword arguments of the run_compress call in Worker.run (qt_gui.py
lines 47-55); five arguments are passed positionally before them. -/
def workerKwargs : List (List Char) := ["progress".data, "cb".data]

/-- Number of positional arguments in that call (path, out_path, mode, 30,
and the preset string). -/
def workerPositionalCount : ℕ := 5

/-- Python call binding: the call raises TypeError unless the positional
arguments fit and every keyword argument names a parameter not already bound
positionally. -/
def pyBindOk (params : List (List Char)) (npos : ℕ) (kwargs : List (List Char)) : Bool :=
  decide (npos ≤ params.length) && kwargs.all (fun k => (params.drop npos).contains k)

/-- Observable outcome of one Worker.run invocation (qt_gui.py lines 41-57). -/
structure WorkerRunResult where
  bindOk : Bool
  encodeStarted : Bool
  finishedEmitted : Bool
deriving DecidableEq

/-- Worker.run: binds the run_compress call; when binding fails the TypeError
propagates before anything in the body of compress (probing, solving,
encoding) runs; the finally block emits finished either way. -/
def workerRun : WorkerRunResult :=
  let ok := pyBindOk compressParams workerPositionalCount workerKwargs
  { bindOk := ok, encodeStarted := ok, finishedEmitted := true }

/-- MainWindow.task_finished (qt_gui.py lines 180-181) sets the job's progress
bar to this value when the finished signal arrives. -/
def task_finished_bar_value : ℕ := 100

/-- Pool states reachable from the idle pool. -/
def PoolReachable (cap : ℕ) (s : PoolState) : Prop :=
  Relation.ReflTransGen (PoolStep cap) ⟨0, 0⟩ s

/-! Helper lemmas. -/

theorem target_b_eq : target_b = 4718592 := by
  norm_num [target_b, pyInt, TARGET_MB]

theorem pyInt_nonneg {q : ℚ} (h : 0 ≤ q) : 0 ≤ pyInt q := by
  rw [pyInt, if_pos h]
  exact Int.floor_nonneg.mpr h

theorem pyInt_mono {a b : ℚ} (ha : 0 ≤ a) (hab : a ≤ b) : pyInt a ≤ pyInt b := by
  rw [pyInt, if_pos ha, pyInt, if_pos (ha.trans hab)]
  exact Int.floor_le_floor hab

theorem pyInt_natCast (n : ℕ) : pyInt (n : ℚ) = n := by
  rw [pyInt, if_pos (by positivity)]
  exact Int.floor_natCast n

theorem pyInt_le_natCast {q : ℚ} {n : ℕ} (h0 : 0 ≤ q) (h : q ≤ (n : ℚ)) :
    pyInt q ≤ (n : ℤ) := by
  have := pyInt_mono h0 h
  rwa [pyInt_natCast] at this

/-- The solver loop of compress.py never exits once the candidate bitrate is
nonpositive: the floor shrinks but stays strictly positive, so the loop
condition holds on every iteration. -/
theorem solveLoop_eq_none_of_vbr_nonpos (w h : ℕ) (dur : ℚ) (hw : 0 < w) (hh : 0 < h)
    (hvbr : vbrOf dur ≤ 0) :
    ∀ (fuel : ℕ) (scale : ℚ), 0 < scale → solveLoop w h dur fuel scale = none := by
  intro fuel
  induction fuel with
  | zero => intro scale _; rfl
  | succ n ih =>
    intro scale hs
    have hw' : (0 : ℚ) < w := by exact_mod_cast hw
    have hh' : (0 : ℚ) < h := by exact_mod_cast hh
    have hmin : 0 < (w : ℚ) * (h : ℚ) * scale * scale * (1 / 10) := by positivity
    have hcond : vbrOf dur < (w : ℚ) * (h : ℚ) * scale * scale * (1 / 10) :=
      lt_of_le_of_lt hvbr hmin
    simp only [solveLoop, if_pos hcond]
    exact ih (scale * (9 / 10)) (by positivity)

/-- The compress5.py loop never exits once the candidate bitrate is negative:
the (mutating, truncated) dimensions stay nonnegative, so the floor stays
nonnegative and exceeds the negative bitrate on every iteration. -/
theorem find_optimal_eq_none_of_vbr_neg (w0 h0 br : ℤ) (dur tb : ℚ)
    (hvbr : (tb * 8 - 64000 * dur) / dur < 0) :
    ∀ (fuel : ℕ) (wCur hCur : ℤ) (s : ℚ), 0 ≤ wCur → 0 ≤ hCur → 0 ≤ s →
      find_optimal_parameters w0 h0 br dur tb fuel wCur hCur s = none := by
  intro fuel
  induction fuel with
  | zero => intros; rfl
  | succ n ih =>
    intro wCur hCur s hwc hhc hs
    have hwc' : (0 : ℚ) ≤ (wCur : ℚ) := by exact_mod_cast hwc
    have hhc' : (0 : ℚ) ≤ (hCur : ℚ) := by exact_mod_cast hhc
    have hmin : 0 ≤ (wCur : ℚ) * (hCur : ℚ) * (1 / 10) := by positivity
    have hcond : (tb * 8 - 64000 * dur) / dur < (wCur : ℚ) * (hCur : ℚ) * (1 / 10) :=
      lt_of_lt_of_le hvbr hmin
    simp only [find_optimal_parameters, if_pos hcond]
    exact ih _ _ _ (pyInt_nonneg (by positivity)) (pyInt_nonneg (by positivity))
      (by positivity)

/-- Every result of the solver loop entered with a scale in (0, 1] has a
nonnegative bitrate and dimensions bounded by the probed ones. -/
theorem solveLoop_some_spec (w h : ℕ) (dur : ℚ) :
    ∀ (fuel : ℕ) (scale : ℚ) (r : SolveResult), 0 < scale → scale ≤ 1 →
      solveLoop w h dur fuel scale = some r →
      0 ≤ r.vbr ∧ r.w2 ≤ (w : ℤ) ∧ r.h2 ≤ (h : ℤ) := by
  intro fuel
  induction fuel with
  | zero => intro scale r _ _ hsome; exact absurd hsome (by simp [solveLoop])
  | succ n ih =>
    intro scale r hs hs1 hsome
    by_cases hcond : vbrOf dur < (w : ℚ) * (h : ℚ) * scale * scale * (1 / 10)
    · rw [solveLoop, if_pos hcond] at hsome
      exact ih (scale * (9 / 10)) r (by positivity)
        (mul_le_one₀ hs1 (by norm_num) (by norm_num)) hsome
    · rw [solveLoop, if_neg hcond] at hsome
      have hr := (Option.some.injEq _ _).mp hsome
      subst hr
      have hmin : (0 : ℚ) ≤ (w : ℚ) * (h : ℚ) * scale * scale * (1 / 10) := by positivity
      refine ⟨pyInt_nonneg (hmin.trans (not_lt.mp hcond)), ?_, ?_⟩
      · exact pyInt_le_natCast (by positivity)
          (mul_le_of_le_one_right (by positivity) hs1)
      · exact pyInt_le_natCast (by positivity)
          (mul_le_of_le_one_right (by positivity) hs1)

/-- The solver loop exits within the given fuel as soon as the loop condition
fails for some iteration index below the fuel. -/
theorem solveLoop_isSome_of_exists (w h : ℕ) (dur : ℚ) :
    ∀ (fuel : ℕ) (scale : ℚ),
      (∃ k, k < fuel ∧
        ¬ vbrOf dur < (w : ℚ) * (h : ℚ) * (scale * (9 / 10) ^ k) * (scale * (9 / 10) ^ k)
          * (1 / 10)) →
      (solveLoop w h dur fuel scale).isSome = true := by
  intro fuel
  induction fuel with
  | zero => intro scale hex; obtain ⟨k, hk, _⟩ := hex; omega
  | succ n ih =>
    intro scale hex
    by_cases hcond : vbrOf dur < (w : ℚ) * (h : ℚ) * scale * scale * (1 / 10)
    · rw [solveLoop, if_pos hcond]
      obtain ⟨k, hk, hnc⟩ := hex
      match k with
      | 0 =>
        exfalso
        apply hnc
        simpa using hcond
      | k' + 1 =>
        apply ih
        refine ⟨k', by omega, ?_⟩
        have heq : scale * (9 / 10 : ℚ) ^ (k' + 1) = scale * (9 / 10) * (9 / 10) ^ k' := by
          ring
        rwa [heq] at hnc
    · rw [solveLoop, if_neg hcond]
      rfl

/-- The solver loop does not exit within the given fuel when the loop
condition holds at every iteration index below the fuel. -/
theorem solveLoop_eq_none_of_forall (w h : ℕ) (dur : ℚ) :
    ∀ (fuel : ℕ) (scale : ℚ),
      (∀ k, k < fuel →
        vbrOf dur < (w : ℚ) * (h : ℚ) * (scale * (9 / 10) ^ k) * (scale * (9 / 10) ^ k)
          * (1 / 10)) →
      solveLoop w h dur fuel scale = none := by
  intro fuel
  induction fuel with
  | zero => intros; rfl
  | succ n ih =>
    intro scale hall
    have h0 := hall 0 (Nat.succ_pos n)
    simp only [pow_zero, mul_one] at h0
    rw [solveLoop, if_pos h0]
    apply ih
    intro k hk
    have heq : scale * (9 / 10 : ℚ) * (9 / 10) ^ k = scale * (9 / 10) ^ (k + 1) := by
      ring
    rw [heq]
    exact hall (k + 1) (by omega)

/-- The bitrate stored in any result of the solver loop is the int() of the
candidate bitrate, which the loop recomputes unchanged on every iteration. -/
theorem solveLoop_vbr_eq (w h : ℕ) (dur : ℚ) :
    ∀ (fuel : ℕ) (scale : ℚ) (r : SolveResult),
      solveLoop w h dur fuel scale = some r → r.vbr = pyInt (vbrOf dur) := by
  intro fuel
  induction fuel with
  | zero => intro scale r hsome; exact absurd hsome (by simp [solveLoop])
  | succ n ih =>
    intro scale r hsome
    by_cases hcond : vbrOf dur < (w : ℚ) * (h : ℚ) * scale * scale * (1 / 10)
    · rw [solveLoop, if_pos hcond] at hsome
      exact ih _ r hsome
    · rw [solveLoop, if_neg hcond] at hsome
      have hr := (Option.some.injEq _ _).mp hsome
      subst hr
      rfl

/-- The dimensions in any result of the solver loop are bounded by the int()
of the entry scale applied to the probed dimensions. -/
theorem solveLoop_dims_le (w h : ℕ) (dur : ℚ) :
    ∀ (fuel : ℕ) (scale : ℚ) (r : SolveResult), 0 ≤ scale →
      solveLoop w h dur fuel scale = some r →
      r.w2 ≤ pyInt ((w : ℚ) * scale) ∧ r.h2 ≤ pyInt ((h : ℚ) * scale) := by
  intro fuel
  induction fuel with
  | zero => intro scale r _ hsome; exact absurd hsome (by simp [solveLoop])
  | succ n ih =>
    intro scale r hs hsome
    by_cases hcond : vbrOf dur < (w : ℚ) * (h : ℚ) * scale * scale * (1 / 10)
    · rw [solveLoop, if_pos hcond] at hsome
      obtain ⟨ihw, ihh⟩ := ih (scale * (9 / 10)) r (by positivity) hsome
      constructor
      · exact ihw.trans (pyInt_mono (by positivity)
          (by nlinarith [Nat.cast_nonneg (α := ℚ) w]))
      · exact ihh.trans (pyInt_mono (by positivity)
          (by nlinarith [Nat.cast_nonneg (α := ℚ) h]))
    · rw [solveLoop, if_neg hcond] at hsome
      have hr := (Option.some.injEq _ _).mp hsome
      subst hr
      exact ⟨le_refl _, le_refl _⟩

/-- Value of the candidate bitrate at 120 s duration and the fixed 4.5 MB
target: (4718592 * 8 - 64000 * 120) / 120 = 250572.8. -/
theorem vbrOf_120 : vbrOf 120 = 1252864 / 5 := by
  rw [vbrOf, target_b_eq]
  norm_num [AUDIO_BR]

/-- Python int() of the candidate bitrate at 120 s duration. -/
theorem pyInt_vbrOf_120 : pyInt (vbrOf 120) = 250572 := by
  rw [vbrOf_120, pyInt, if_pos (by norm_num)]
  norm_num

/-- When the scale-1.0 candidate bitrate already meets the floor for the
probed resolution, the loop exits on its first iteration at 120 s duration,
returning the unscaled dimensions and bitrate 250572. -/
theorem solveLoop_120_first_iteration (w h : ℕ)
    (hle : (w : ℚ) * (h : ℚ) * (1 / 10) ≤ 1252864 / 5) :
    solveLoop w h 120 1 1 = some ⟨(w : ℤ), (h : ℤ), 250572⟩ := by
  have hcond : ¬ vbrOf 120 < (w : ℚ) * (h : ℚ) * 1 * 1 * (1 / 10) := by
    rw [not_lt, vbrOf_120]
    calc (w : ℚ) * (h : ℚ) * 1 * 1 * (1 / 10) = (w : ℚ) * (h : ℚ) * (1 / 10) := by ring
      _ ≤ 1252864 / 5 := hle
  rw [solveLoop, if_neg hcond]
  congr 1
  have hw : pyInt ((w : ℚ) * 1) = (w : ℤ) := by rw [mul_one, pyInt_natCast]
  have hh : pyInt ((h : ℚ) * 1) = (h : ℤ) := by rw [mul_one, pyInt_natCast]
  rw [hw, hh, pyInt_vbrOf_120]

/-- Relay step on an out_time_ms line whose value parses as an integer. -/
theorem relayCallbacks_cons_parsed (line : List Char) (rest : List (List Char)) (n : ℤ)
    (h1 : startsWithChars "out_time_ms=".data line = true)
    (h2 : pyParseInt (dropThroughEq line) = some n) :
    relayCallbacks (line :: rest) = ((n : ℚ) / 1000000) :: relayCallbacks rest := by
  rw [relayCallbacks, if_pos h1, h2]

/-- Relay step on an out_time_ms line whose value fails to parse: the line is
skipped, no callback is produced. -/
theorem relayCallbacks_cons_unparsed (line : List Char) (rest : List (List Char))
    (h1 : startsWithChars "out_time_ms=".data line = true)
    (h2 : pyParseInt (dropThroughEq line) = none) :
    relayCallbacks (line :: rest) = relayCallbacks rest := by
  rw [relayCallbacks, if_pos h1, h2]

/-- The done counter after draining a message list equals its starting value
plus the number of terminal messages in the list. -/
theorem processGuiQueue_eq_add_countP (l : List GuiMsg) :
    ∀ done, processGuiQueue done l = done + l.countP (fun m => m.isTerminal) := by
  induction l with
  | nil => intro done; simp [processGuiQueue]
  | cons m ms ih =>
    intro done
    by_cases h : m.isTerminal = true
    · rw [processGuiQueue, if_pos h, ih, List.countP_cons, h]
      simp
      omega
    · rw [processGuiQueue, if_neg h, ih, List.countP_cons]
      simp [h]

/-- Each job trace contains exactly one terminal message, whatever its
outcome and however many progress updates it produced. -/
theorem jobTrace_countP_terminal (ok : Bool) (ps : List ℚ) (s : ℚ) :
    (jobTrace ok ps s).countP (fun m => m.isTerminal) = 1 := by
  cases ok <;>
    simp [jobTrace, List.countP_cons, List.countP_append, List.countP_map,
      Function.comp_def, GuiMsg.isTerminal, List.countP_eq_zero]

/-- One pool transition preserves the worker bound. -/
theorem poolStep_running_le {cap : ℕ} {s t : PoolState} (h : PoolStep cap s t)
    (hs : s.running ≤ cap) : t.running ≤ cap := by
  cases h with
  | submit p r => exact hs
  | start p r hlt => exact hlt
  | finish p r => exact le_trans (Nat.le_succ r) hs

/-- Every reachable pool state respects the worker bound. -/
theorem poolReachable_running_le (cap : ℕ) (s : PoolState) (h : PoolReachable cap s) :
    s.running ≤ cap := by
  induction h with
  | refl => exact Nat.zero_le cap
  | tail _ hstep ih => exact poolStep_running_le hstep ih

/-! Claim theorems. -/

/-- C1: the code contains no InfeasibleTarget report.  For every degenerate
size target (target_bytes * 8 ≤ audio_bitrate * duration) the downscale loop
of compress.py never exits, whatever iteration budget it is given, and the
compress5.py variant likewise never exits when the candidate bitrate is
negative; no error value is ever produced, contrary to the claim. -/
theorem C1_no_infeasible_report :
    (∀ (w h : ℕ) (dur : ℚ) (fuel : ℕ), 0 < w → 0 < h → 0 < dur →
        (target_b : ℚ) * 8 ≤ (AUDIO_BR : ℚ) * dur →
        solveLoop w h dur fuel 1 = none) ∧
    (∀ (w0 h0 br : ℤ) (dur tb : ℚ) (fuel : ℕ), 0 < dur → tb * 8 < 64000 * dur →
        0 ≤ w0 → 0 ≤ h0 →
        find_optimal_parameters w0 h0 br dur tb fuel w0 h0 1 = none) := by
  constructor
  · intro w h dur fuel hw hh hd htgt
    have hvbr : vbrOf dur ≤ 0 := by
      rw [vbrOf]
      apply div_nonpos_of_nonpos_of_nonneg (by linarith) hd.le
    exact solveLoop_eq_none_of_vbr_nonpos w h dur hw hh hvbr fuel 1 one_pos
  · intro w0 h0 br dur tb fuel hd htgt hw0 hh0
    have hvbr : (tb * 8 - 64000 * dur) / dur < 0 :=
      div_neg_of_neg_of_pos (by linarith) hd
    exact find_optimal_eq_none_of_vbr_neg w0 h0 br dur tb hvbr fuel w0 h0 1 hw0 hh0
      zero_le_one

/-- Witness for C1 at a concrete degenerate input: 100x100 video, 600 s
duration, 4.5 MB target, 64 kb/s audio. -/
theorem C1_no_infeasible_report_witness :
    ((0 : ℚ) < 600 ∧ (target_b : ℚ) * 8 ≤ (AUDIO_BR : ℚ) * 600 ∧
      solveLoop 100 100 600 200 1 = none) ∧
    ((0 : ℚ) < 600 ∧ (4718592 : ℚ) * 8 < 64000 * 600 ∧
      find_optimal_parameters 100 100 0 600 4718592 200 100 100 1 = none) := by
  refine ⟨⟨by norm_num, by rw [target_b_eq]; norm_num [AUDIO_BR], ?_⟩,
    ⟨by norm_num, by norm_num, ?_⟩⟩
  · exact C1_no_infeasible_report.1 100 100 600 200 (by norm_num) (by norm_num)
      (by norm_num) (by rw [target_b_eq]; norm_num [AUDIO_BR])
  · exact C1_no_infeasible_report.2 100 100 0 600 4718592 200 (by norm_num)
      (by norm_num) (by norm_num) (by norm_num)

/-- C2 counterexample: a valid input (positive dimensions, positive duration,
target above the audio floor) on which the downscale loop performs 200
iterations without exiting, refuting the claimed bound of at most 200
iterations.  At 200000000000 x 200000000000 and duration 576 s the candidate
bitrate is 1536 b/s and the floor still exceeds it after 200 halvings-by-0.9
of the scale. -/
theorem C2_cex_loop_exceeds_200_iterations :
    0 < (200000000000 : ℕ) ∧ (0 : ℚ) < 576 ∧
    (AUDIO_BR : ℚ) * 576 / 8 < (target_b : ℚ) ∧
    solveLoop 200000000000 200000000000 576 200 1 = none := by
  refine ⟨by norm_num, by norm_num, by rw [target_b_eq]; norm_num [AUDIO_BR], ?_⟩
  apply solveLoop_eq_none_of_forall
  intro k hk
  have hvbr : vbrOf 576 = 1536 := by
    rw [vbrOf, target_b_eq]
    norm_num [AUDIO_BR]
  have hmono : ((81 : ℚ) / 100) ^ 199 ≤ ((81 : ℚ) / 100) ^ k :=
    pow_le_pow_of_le_one (by norm_num) (by norm_num) (by omega)
  have hbig : (1536 : ℚ) * 10 / (200000000000 * 200000000000) < ((81 : ℚ) / 100) ^ 199 := by
    norm_num
  have hx : ((1 : ℚ) * (9 / 10) ^ k) * (1 * (9 / 10) ^ k) = ((81 : ℚ) / 100) ^ k := by
    rw [one_mul, ← mul_pow]
    norm_num
  rw [hvbr]
  have hkey : (1536 : ℚ) * 10 / (200000000000 * 200000000000) < ((81 : ℚ) / 100) ^ k :=
    lt_of_lt_of_le hbig hmono
  have hcast : ((200000000000 : ℕ) : ℚ) = 200000000000 := by norm_num
  rw [hcast]
  rw [div_lt_iff₀ (by norm_num)] at hkey
  have heq : (200000000000 : ℚ) * 200000000000 * (1 * (9 / 10) ^ k) * (1 * (9 / 10) ^ k)
      * (1 / 10) = ((81 : ℚ) / 100) ^ k * ((200000000000 : ℚ) * 200000000000) / 10 := by
    rw [← hx]
    ring
  rw [heq]
  linarith

/-- C2 as amended: for every valid input the downscale loop terminates for a
large enough iteration budget (there is just no uniform budget of 200), and
the result has a nonnegative bitrate and componentwise bounded dimensions. -/
theorem C2_amended_terminates (w h : ℕ) (dur : ℚ) (hw : 0 < w) (hh : 0 < h)
    (hd : 0 < dur) (ht : (AUDIO_BR : ℚ) * dur / 8 < (target_b : ℚ)) :
    ∃ (fuel : ℕ) (r : SolveResult), solveLoop w h dur fuel 1 = some r ∧
      0 ≤ r.vbr ∧ r.w2 ≤ (w : ℤ) ∧ r.h2 ≤ (h : ℤ) := by
  have hw' : (0 : ℚ) < w := by exact_mod_cast hw
  have hh' : (0 : ℚ) < h := by exact_mod_cast hh
  have hvbr : 0 < vbrOf dur := by
    rw [vbrOf]
    apply div_pos (by linarith) hd
  obtain ⟨n, hn⟩ := exists_pow_lt_of_lt_one
    (x := vbrOf dur * 10 / ((w : ℚ) * h)) (y := (81 : ℚ) / 100) (by positivity) (by norm_num)
  have hsome := solveLoop_isSome_of_exists w h dur (n + 1) 1 ⟨n, Nat.lt_succ_self n, ?_⟩
  · obtain ⟨r, hr⟩ := Option.isSome_iff_exists.mp hsome
    exact ⟨n + 1, r, hr, solveLoop_some_spec w h dur (n + 1) 1 r one_pos le_rfl hr⟩
  · rw [not_lt]
    have hx : ((1 : ℚ) * (9 / 10) ^ n) * (1 * (9 / 10) ^ n) = ((81 : ℚ) / 100) ^ n := by
      rw [one_mul, ← mul_pow]
      norm_num
    rw [lt_div_iff₀ (by positivity)] at hn
    have heq : (w : ℚ) * h * (1 * (9 / 10) ^ n) * (1 * (9 / 10) ^ n) * (1 / 10)
        = ((81 : ℚ) / 100) ^ n * ((w : ℚ) * h) / 10 := by
      rw [← hx]
      ring
    rw [heq]
    linarith

/-- Witness for C2 as amended at a concrete valid input. -/
theorem C2_amended_terminates_witness :
    0 < 16 ∧ (0 : ℚ) < 1 ∧ (AUDIO_BR : ℚ) * 1 / 8 < (target_b : ℚ) ∧
    ∃ (fuel : ℕ) (r : SolveResult), solveLoop 16 16 1 fuel 1 = some r ∧
      0 ≤ r.vbr ∧ r.w2 ≤ ((16 : ℕ) : ℤ) ∧ r.h2 ≤ ((16 : ℕ) : ℤ) :=
  ⟨by norm_num, by norm_num, by rw [target_b_eq]; norm_num [AUDIO_BR],
    C2_amended_terminates 16 16 1 (by norm_num) (by norm_num) (by norm_num)
      (by rw [target_b_eq]; norm_num [AUDIO_BR])⟩

/-- C8 counterexample: at duration 120 s, 4.5 MB target and 64000 b/s audio,
the solver's formula value is (4718592 * 8 - 64000 * 120) / 120 = 250572.8,
returned as bitrate 250572 at a 1280x720 input, which is not consistent with
the claimed approximation of 245653 b/s (it is more than 4000 b/s above it). -/
theorem C8_cex_bitrate_not_245653 :
    solveLoop 1280 720 120 1 1 = some ⟨((1280 : ℕ) : ℤ), ((720 : ℕ) : ℤ), 250572⟩ ∧
    vbrOf 120 = 1252864 / 5 ∧
    (245653 : ℚ) + 4000 < 1252864 / 5 := by
  refine ⟨solveLoop_120_first_iteration 1280 720 (by norm_num), vbrOf_120, by norm_num⟩

/-- C8 as amended: with the arithmetic corrected, at duration 120 s the
candidate bitrate is 250572.8 b/s (int() = 250572).  Whenever that exceeds
the scale-1.0 min-bitrate floor w*h*0.1 the solver returns it at the probed
resolution; otherwise every result the loop produces still carries bitrate
250572 but at a reduced scale (dimensions at most int() of 0.9 of the probed
ones). -/
theorem C8_amended_bitrate_250572 (w h : ℕ) :
    ((w : ℚ) * (h : ℚ) * (1 / 10) ≤ 1252864 / 5 →
      solveLoop w h 120 1 1 = some ⟨(w : ℤ), (h : ℤ), 250572⟩) ∧
    (1252864 / 5 < (w : ℚ) * (h : ℚ) * (1 / 10) →
      ∀ (fuel : ℕ) (r : SolveResult), solveLoop w h 120 fuel 1 = some r →
        r.vbr = 250572 ∧ r.w2 ≤ pyInt ((w : ℚ) * (9 / 10)) ∧
          r.h2 ≤ pyInt ((h : ℚ) * (9 / 10))) := by
  constructor
  · exact solveLoop_120_first_iteration w h
  · intro hlt fuel r hsome
    match fuel with
    | 0 => exact absurd hsome (by simp [solveLoop])
    | n + 1 =>
      have hcond : vbrOf 120 < (w : ℚ) * (h : ℚ) * 1 * 1 * (1 / 10) := by
        rw [vbrOf_120]
        calc (1252864 : ℚ) / 5 < (w : ℚ) * (h : ℚ) * (1 / 10) := hlt
          _ = (w : ℚ) * (h : ℚ) * 1 * 1 * (1 / 10) := by ring
      rw [solveLoop, if_pos hcond] at hsome
      refine ⟨?_, ?_, ?_⟩
      · rw [solveLoop_vbr_eq w h 120 n _ r hsome, pyInt_vbrOf_120]
      · have := (solveLoop_dims_le w h 120 n (1 * (9 / 10)) r (by norm_num) hsome).1
        rwa [one_mul] at this
      · have := (solveLoop_dims_le w h 120 n (1 * (9 / 10)) r (by norm_num) hsome).2
        rwa [one_mul] at this

/-- Witness for C8 as amended at the 1280x720 input, whose floor 92160 is
below the candidate bitrate. -/
theorem C8_amended_bitrate_250572_witness :
    ((1280 : ℕ) : ℚ) * ((720 : ℕ) : ℚ) * (1 / 10) ≤ 1252864 / 5 ∧
    solveLoop 1280 720 120 1 1 = some ⟨((1280 : ℕ) : ℤ), ((720 : ℕ) : ℤ), 250572⟩ :=
  ⟨by norm_num, (C8_amended_bitrate_250572 1280 720).1 (by norm_num)⟩

/-- C4: nothing rejects a nonpositive duration upstream.  A file whose probed
duration string does not parse gets duration 0.0 from get_duration, and the
size-mode path of compress then evaluates the bitrate division with that zero
duration, raising ZeroDivisionError - the division is reached, not guarded. -/
theorem C4_zero_duration_reaches_division :
    get_duration none = 0 ∧
    compress_size none 1280 720 200 = Except.error "ZeroDivisionError" := by
  constructor
  · rfl
  · simp [compress_size, get_duration, pyDiv]

/-- C3: the relay multiplies every parsed out_time_ms value by 1/1,000,000
(the value is microseconds despite the key name), skips lines whose value
does not parse without raising, and on the synthetic stream ending with
out_time_ms=5000000 then progress=end it reports 5.0 seconds, while
out_time_ms=N/A produces no callback. -/
theorem C3_relay_microseconds :
    (∀ (line : List Char) (rest : List (List Char)) (n : ℤ),
        startsWithChars "out_time_ms=".data line = true →
        pyParseInt (dropThroughEq line) = some n →
        relayCallbacks (line :: rest) = ((n : ℚ) / 1000000) :: relayCallbacks rest) ∧
    (∀ (line : List Char) (rest : List (List Char)),
        startsWithChars "out_time_ms=".data line = true →
        pyParseInt (dropThroughEq line) = none →
        relayCallbacks (line :: rest) = relayCallbacks rest) ∧
    relayCallbacks ["out_time_ms=5000000\n".data, "progress=end\n".data] = [5] ∧
    relayCallbacks ["out_time_ms=N/A\n".data, "progress=end\n".data] = [] := by
  have hend : relayCallbacks ["progress=end\n".data] = [] := by
    rw [relayCallbacks,
      if_neg (by simp [show startsWithChars "out_time_ms=".data "progress=end\n".data = false
        from by decide]),
      if_pos (show startsWithChars "progress=end".data "progress=end\n".data = true
        from by decide)]
  refine ⟨relayCallbacks_cons_parsed, relayCallbacks_cons_unparsed, ?_, ?_⟩
  · rw [relayCallbacks_cons_parsed _ _ 5000000 (by decide) (by decide), hend]
    norm_num
  · rw [relayCallbacks_cons_unparsed _ _ (by decide) (by decide), hend]

/-- Witness for C3 on a concrete line with a parsed value. -/
theorem C3_relay_microseconds_witness :
    startsWithChars "out_time_ms=".data "out_time_ms=250000\n".data = true ∧
    pyParseInt (dropThroughEq "out_time_ms=250000\n".data) = some 250000 ∧
    relayCallbacks ["out_time_ms=250000\n".data] = [((250000 : ℤ) : ℚ) / 1000000] :=
  ⟨by decide, by decide,
    C3_relay_microseconds.1 "out_time_ms=250000\n".data [] 250000 (by decide) (by decide)⟩

/-- C5: a job whose duration is at or below the 2.0 s short-clip threshold is
run synchronously; on success the progress callback fires exactly once, with
the full duration, which the GUI percent formula maps to 100. -/
theorem C5_short_clip_single_callback (dur : ℚ) (lines : List (List Char))
    (hd : 0 < dur) (hshort : dur ≤ SHORT_THRESHOLD) :
    (run_ffmpeg_gui dur lines true).1 = [dur] ∧
    ((run_ffmpeg_gui dur lines true).1.map (guiPercent dur)) = [100] := by
  have h1 : (run_ffmpeg_gui dur lines true).1 = [dur] := by
    rw [run_ffmpeg_gui, if_pos hshort, if_pos rfl]
  refine ⟨h1, ?_⟩
  rw [h1]
  have : guiPercent dur dur = 100 := by
    rw [guiPercent, mul_comm, mul_div_assoc, div_self (ne_of_gt hd), mul_one, min_self]
  simp [this]

/-- Witness for C5 on a 1-second clip with a nonempty (ignored) stream. -/
theorem C5_short_clip_single_callback_witness :
    (0 : ℚ) < 1 ∧ (1 : ℚ) ≤ SHORT_THRESHOLD ∧
    (run_ffmpeg_gui 1 ["out_time_ms=500000\n".data] true).1 = [1] ∧
    ((run_ffmpeg_gui 1 ["out_time_ms=500000\n".data] true).1.map (guiPercent 1)) = [100] := by
  have h := C5_short_clip_single_callback 1 ["out_time_ms=500000\n".data]
    (by norm_num) (by norm_num [SHORT_THRESHOLD])
  exact ⟨by norm_num, by norm_num [SHORT_THRESHOLD], h.1, h.2⟩

/-- C6: for any number of jobs, and for any interleaving of their gui_queue
message traces (completion order and progress volume are arbitrary), draining
the queue increments done exactly once per job - on its single terminal
finish-or-error message, never on begin or progress messages - so the final
count equals the number of jobs. -/
theorem C6_completed_count_once_per_job (jobs : List (Bool × List ℚ × ℚ))
    (l : List GuiMsg)
    (hperm : l.Perm ((jobs.map (fun j => jobTrace j.1 j.2.1 j.2.2)).flatten)) :
    processGuiQueue 0 l = jobs.length := by
  rw [processGuiQueue_eq_add_countP, hperm.countP_eq, List.countP_flatten,
    List.map_map]
  simp [Function.comp_def, jobTrace_countP_terminal]

/-- Witness for C6: two jobs, one finishing and one failing, drained in
submission order. -/
theorem C6_completed_count_once_per_job_witness :
    processGuiQueue 0
      ((([((true : Bool), ([1] : List ℚ), (2 : ℚ)), (false, [3], 0)]).map
        (fun j => jobTrace j.1 j.2.1 j.2.2)).flatten) = 2 :=
  C6_completed_count_once_per_job [(true, [1], 2), (false, [3], 0)] _ (List.Perm.refl _)

/-- C7 counterexample: compress5.py does not force a fixed container
extension - the output extension tracks the input extension (.mkv input
yields a .mkv output, .avi yields .avi), unlike the compress.py sites, which
force .mp4 on the same input. -/
theorem C7_cex_compress5_keeps_extension :
    compress5OutName "video.mkv".data = "video_smaller.mkv".data ∧
    compress5OutName "video.avi".data = "video_smaller.avi".data ∧
    "video_smaller.mkv".data ≠ "video_smaller.mp4".data ∧
    cliOutName "video.mkv".data true = "video_smaller.mp4".data := by
  refine ⟨by decide, by decide, by decide, by decide⟩

/-- C7 as amended: across the compress.py CLI, the Tk GUI and the Qt GUI the
output name is the input stem plus _smaller (size mode) or _compressed
(quality mode) with the fixed .mp4 extension, and all three sites agree;
compress5.py instead appends _smaller to the splitext root and keeps the
input's own extension. -/
theorem C7_amended_output_naming (name : List Char) (b : Bool) :
    cliOutName name b = qtOutName name b ∧
    guiOutName name (if b then "size".data else "crf".data) = cliOutName name b ∧
    (∃ r, cliOutName name b = r ++ ".mp4".data) ∧
    compress5OutName name = (pySplitext name).1 ++ "_smaller".data ++ (pySplitext name).2 := by
  refine ⟨?_, ?_, ?_, rfl⟩
  · cases b with
    | true =>
      rw [cliOutName, if_pos rfl, qtOutName, if_pos rfl]
      simp only [List.append_assoc]
      congr 1
    | false =>
      rw [cliOutName, qtOutName]
      rw [if_neg (by simp), if_neg (by simp)]
      simp only [List.append_assoc]
      congr 1
  · cases b with
    | true =>
      rw [if_pos rfl, guiOutName, if_pos rfl, cliOutName, if_pos rfl]
    | false =>
      rw [if_neg (by simp), guiOutName, if_neg (by decide), cliOutName, if_neg (by simp)]
  · cases b with
    | true =>
      refine ⟨(pySplitext name).1 ++ "_smaller".data, ?_⟩
      rw [cliOutName, if_pos rfl, List.append_assoc]
      congr 1
    | false =>
      refine ⟨(pySplitext name).1 ++ "_compressed".data, ?_⟩
      rw [cliOutName, if_neg (by simp), List.append_assoc]
      congr 1

/-- C9: concurrency bound.  All pool states reachable with any cap at most
MAX_WORKERS keep at most MAX_WORKERS jobs running (covering run_gui, cap 4,
and main, cap min(len(tasks), 4)); the Qt adapter starts a thread per task,
but its worker never reaches the encoding phase at all (the run_compress call
fails to bind), so it runs zero concurrent encodes. -/
theorem C9_bounded_concurrency :
    (∀ (cap : ℕ) (s : PoolState), cap ≤ MAX_WORKERS → PoolReachable cap s →
        s.running ≤ MAX_WORKERS) ∧
    (∀ nTasks, cliMaxWorkers nTasks ≤ MAX_WORKERS) ∧
    workerRun.encodeStarted = false := by
  refine ⟨?_, ?_, by decide⟩
  · intro cap s hcap hreach
    exact le_trans (poolReachable_running_le cap s hreach) hcap
  · intro n
    exact min_le_right n MAX_WORKERS

/-- Witness for C9: the pool state after one submit and one start. -/
theorem C9_bounded_concurrency_witness :
    MAX_WORKERS ≤ MAX_WORKERS ∧ PoolReachable MAX_WORKERS ⟨0, 1⟩ ∧
    (PoolState.mk 0 1).running ≤ MAX_WORKERS ∧ cliMaxWorkers 10 ≤ MAX_WORKERS :=
  have hreach : PoolReachable MAX_WORKERS ⟨0, 1⟩ :=
    Relation.ReflTransGen.tail (Relation.ReflTransGen.single (PoolStep.submit 0 0))
      (PoolStep.start 0 0 (by norm_num [MAX_WORKERS]))
  ⟨le_refl _, hreach,
    C9_bounded_concurrency.1 MAX_WORKERS ⟨0, 1⟩ (le_refl _) hreach,
    C9_bounded_concurrency.2.1 10⟩

/-- C10: the Worker.run call into compress passes the unexpected keyword
argument cb, so the call fails to bind - a TypeError is raised before any
probing or encoding starts - while the finally block still emits finished,
whereupon task_finished sets the job's progress bar to 100. -/
theorem C10_qt_worker_type_error :
    workerRun.bindOk = false ∧ workerRun.encodeStarted = false ∧
    workerRun.finishedEmitted = true ∧ task_finished_bar_value = 100 := by
  refine ⟨by decide, by decide, rfl, rfl⟩

end EasyVideoCompress
